import Mathlib

/-!
Verification of the sdp-tools MinIO wrapper (src/minio_file/minio_file.py).

The development shallowly embeds:
* the legacy class entry point (the only connection constructor present in
  src/), modelling the process environment as a lookup function and the
  underlying storage client constructor as a record of the arguments it
  receives;
* the CLI entry point main, with the filesystem modelled as a predicate on
  path strings;
* the Connection Resolver of the functional API, whose implementation file
  is absent from src/ (only tests/test_functional_api.py exercises it); it
  is modelled from the spec where noted.
-/

namespace SdpTools

/-- The process environment, as consulted by os.getenv: a name is mapped to
some value when the variable is set, and to none when it is absent. -/
def Env : Type := String → Option String

/-- Build an environment from an association list of set variables. -/
def Env.ofList (l : List (String × String)) : Env :=
  fun k => (l.find? (fun p => p.1 == k)).map (fun p => p.2)

/-- Python startswith, on the character lists of the strings. -/
def pyStartsWith (s pre : String) : Bool :=
  pre.data.isPrefixOf s.data

/-- One pass of Python str.replace with pattern http:// and empty
replacement: every non-overlapping occurrence, scanning left to right, is
deleted. -/
def removeHttp : List Char → List Char
  | 'h' :: 't' :: 't' :: 'p' :: ':' :: '/' :: '/' :: rest => removeHttp rest
  | c :: rest => c :: removeHttp rest
  | [] => []

/-- One pass of Python str.replace with pattern https:// and empty
replacement. -/
def removeHttps : List Char → List Char
  | 'h' :: 't' :: 't' :: 'p' :: 's' :: ':' :: '/' :: '/' :: rest => removeHttps rest
  | c :: rest => c :: removeHttps rest
  | [] => []

/-- The endpoint normalization performed at line 31 of minio_file.py:
cred["endpoint"].replace("http://", "").replace("https://", ""). -/
def legacyHostOf (endpoint : String) : String :=
  String.mk (removeHttps (removeHttp endpoint.data))

/-- The secure flag derivation at line 32 of minio_file.py:
cred["endpoint"].startswith("https://"), on the untouched string. -/
def legacySecureOf (endpoint : String) : Bool :=
  pyStartsWith endpoint "https://"

/-- The account tags accepted by minio_file.__init__. -/
def knownAccounts : List String := ["WO", "HO", "ML", "VIZ"]

/-- The four credential values read by _get_credentials via os.getenv;
each is an Option because getenv yields None for an absent variable. -/
structure Credentials where
  bucket_name : Option String
  access_key : Option String
  secret_key : Option String
  endpoint : Option String
deriving Repr, DecidableEq

/-- Name of an environment variable of the conventional pattern
MINIO_ACCOUNT_FIELD. -/
def envVar (account field : String) : String :=
  "MINIO_" ++ account ++ "_" ++ field

/-- Shallow embedding of minio_file._get_credentials. -/
def get_credentials (account : String) (env : Env) : Credentials :=
  { bucket_name := env (envVar account "BUCKET")
  , access_key := env (envVar account "ACCESS_KEY")
  , secret_key := env (envVar account "SECRET_KEY")
  , endpoint := env (envVar account "ENDPOINT") }

/-- The arguments handed to the underlying storage client constructor
Minio(endpoint_url, access_key=..., secret_key=..., secure=...). -/
structure ClientArgs where
  endpoint : String
  access_key : Option String
  secret_key : Option String
  secure : Bool
deriving Repr, DecidableEq

/-- The failure modes of the legacy constructor. invalidAccount models the
statement at line 44, raise (f"Incorrect account " + account); at runtime
CPython surfaces the raising of a bare string as a TypeError, but the
failure it signals is the invalid-account rejection, and it carries this
message. endpointNone models the AttributeError from calling .replace on
the None returned by getenv when the ENDPOINT variable is unset. -/
inductive PyError where
  | invalidAccount (msg : String)
  | endpointNone
deriving Repr, DecidableEq

/-- The state of a successfully constructed minio_file object: the fields
assigned by __init__ and _get_client. -/
structure MinioFileObj where
  account : String
  bucket_name : Option String
  client : ClientArgs
deriving Repr, DecidableEq

/-- Shallow embedding of minio_file._get_client (lines 28-39): reads the
credentials, stores bucket_name, normalizes the endpoint, derives the
secure flag, and constructs the client. When the ENDPOINT variable is
unset, cred["endpoint"] is None and .replace raises. -/
def get_client (account : String) (env : Env) : Except PyError MinioFileObj :=
  let cred := get_credentials account env
  match cred.endpoint with
  | none => Except.error PyError.endpointNone
  | some ep =>
      Except.ok
        { account := account
        , bucket_name := cred.bucket_name
        , client :=
            { endpoint := legacyHostOf ep
            , access_key := cred.access_key
            , secret_key := cred.secret_key
            , secure := legacySecureOf ep } }

/-- Shallow embedding of minio_file.__init__ (lines 41-46): rejects an
account outside the known set before any environment read, then stores the
account and builds the client. -/
def minio_file_init (account : String) (env : Env) : Except PyError MinioFileObj :=
  if account ∈ knownAccounts then get_client account env
  else Except.error (PyError.invalidAccount ("Incorrect account " ++ account))

/-- A record of a stored object as yielded by the underlying client's
list_objects: the attributes consulted anywhere in this code base. -/
structure ObjStat where
  object_name : String
  size : Nat
  last_modified : String
  etag : String
deriving Repr, DecidableEq

/-- The arguments of a list_objects call on the underlying client. -/
structure ListObjectsReq where
  bucket_name : Option String
  recursive : Bool
deriving Repr, DecidableEq

/-- Shallow embedding of minio_file.get_file_list (lines 56-60): issues
list_objects(self.bucket_name, recursive=True) and, given the objects the
client yields, produces the printed lines, one per object, showing the
object name and size. -/
def get_file_list (obj : MinioFileObj) :
    ListObjectsReq × (List ObjStat → List String) :=
  ( { bucket_name := obj.bucket_name, recursive := true }
  , fun objs =>
      objs.map (fun o => o.object_name ++ " (" ++ toString o.size ++ " bytes)") )

/-- The arguments of an fget_object call on the underlying client. -/
structure FgetReq where
  bucket_name : Option String
  object_name : String
  file_path : String
deriving Repr, DecidableEq

/-- Shallow embedding of minio_file.download_file (lines 62-64):
fget_object(file_path=file_name, object_name=full_name,
bucket_name=self.bucket_name). -/
def download_file (obj : MinioFileObj) (file_name full_name : String) : FgetReq :=
  { bucket_name := obj.bucket_name, object_name := full_name, file_path := file_name }

/-- Split a character list at every slash; mirrors Python str.split("/"). -/
def splitOnSlash : List Char → List (List Char)
  | [] => [[]]
  | '/' :: rest => [] :: splitOnSlash rest
  | c :: rest =>
    match splitOnSlash rest with
    | [] => [[c]]
    | g :: gs => (c :: g) :: gs

/-- The path components pathlib keeps: split on slashes, dropping empty
components and single dots. -/
def posixParts (s : String) : List (List Char) :=
  (splitOnSlash s.data).filter (fun g => !g.isEmpty && !(g == ['.']))

/-- Join components with single slashes. -/
def joinSlash : List (List Char) → List Char
  | [] => []
  | [g] => g
  | g :: gs => g ++ '/' :: joinSlash gs

/-- The root pathlib keeps on POSIX: a double slash survives only when the
path starts with exactly two slashes. -/
def posixRoot (s : String) : List Char :=
  if pyStartsWith s "//" && !pyStartsWith s "///" then ['/', '/']
  else if pyStartsWith s "/" then ['/']
  else []

/-- str(Path(s)) for a POSIX pure path: root plus the kept components
joined by slashes, or a dot for an empty result. This is how main turns
argv[1] into the Path object whose string form names the object. -/
def pathStr (s : String) : String :=
  let parts := posixParts s
  let root := posixRoot s
  if root.isEmpty && parts.isEmpty then "." else String.mk (root ++ joinSlash parts)

/-- What a run of the CLI entry point does after the connection is built. -/
inductive MainOutcome where
  | listed (req : ListObjectsReq)
  | skippedExisting (path : String)
  | downloaded (req : FgetReq)
deriving Repr, DecidableEq

/-- Shallow embedding of main (lines 67-84): builds minio_file("HO"); with
exactly two positional arguments (len(argv) == 3) it takes argv[1], forms
the Path object, skips when that path is an existing file and otherwise
downloads with file_name = argv[1] and full_name = str(Path(argv[1]));
with any other argument count it lists the bucket. The filesystem is the
predicate fs on path strings. -/
def main (argv : List String) (fs : String → Bool) (env : Env) :
    Except PyError MainOutcome :=
  match minio_file_init "HO" env with
  | Except.error e => Except.error e
  | Except.ok ho =>
    match argv with
    | [_, ho_file, _] =>
        let p := pathStr ho_file
        if fs p then Except.ok (MainOutcome.skippedExisting p)
        else Except.ok (MainOutcome.downloaded (download_file ho ho_file p))
    | _ => Except.ok (MainOutcome.listed (get_file_list ho).1)

/-! ## The functional-API Connection Resolver

tests/test_functional_api.py imports MinioConnection, create_connection,
upload_file, download_file, list_files and get_buckets from the package,
but the module defining them is absent from src/ (the package __init__
exports only the legacy names). The definitions below are therefore
modelled from the spec, as noted on each. -/

/-- The client handle of the functional API, recorded as the constructor
arguments it receives. -/
structure ResolvedClient where
  host : String
  access_key : String
  secret_key : String
  secure : Bool
deriving Repr, DecidableEq

/-- Modelled from the spec: the Connection entity of the data model, with
an exclusively owned client handle and the resolved default bucket. -/
structure MinioConnection where
  client : ResolvedClient
  bucket_name : String
deriving Repr, DecidableEq

/-- Modelled from the spec: the error taxonomy of the Connection Resolver.
Each error carries the names of the variables or fields at fault, since
resolution errors must name them for the operator. -/
inductive ResolveError where
  | invalidAccount (account : String)
  | missingCredentials (missing : List String)
  | incompleteExplicitCredentials (missing : List String)
deriving Repr, DecidableEq

/-- A credential value counts as missing when it is absent or empty. -/
def isBlankOpt : Option String → Bool
  | none => true
  | some s => s.data.isEmpty

/-- The field suffixes of the conventional environment variables. -/
def resolverFields : List String := ["BUCKET", "ACCESS_KEY", "SECRET_KEY", "ENDPOINT"]

/-- The environment variables of an account that are absent or empty. -/
def missingEnvVars (account : String) (env : Env) : List String :=
  (resolverFields.filter (fun f => isBlankOpt (env (envVar account f)))).map
    (envVar account)

/-- Modelled from the spec: endpoint normalization of the resolver — strip
an optional leading http:// or https:// scheme prefix to obtain the bare
host string. -/
def stripLeadingScheme (s : String) : String :=
  if pyStartsWith s "http://" then String.mk (s.data.drop 7)
  else if pyStartsWith s "https://" then String.mk (s.data.drop 8)
  else s

/-- Modelled from the spec: the client of a resolved Connection is built
from the normalized host, the keys, and the secure flag derived from the
untouched original endpoint string. -/
def specClient (ep ak sk : String) : ResolvedClient :=
  { host := stripLeadingScheme ep
  , access_key := ak
  , secret_key := sk
  , secure := pyStartsWith ep "https://" }

/-- The explicit fields of a resolution call that are absent or empty,
by name. -/
def missingExplicitFields (endpoint access_key secret_key bucket : Option String) :
    List String :=
  (([ ("endpoint", endpoint), ("access_key", access_key)
    , ("secret_key", secret_key), ("bucket", bucket) ].filter
      (fun p => isBlankOpt p.2)).map (fun p => p.1))

/-- Modelled from the spec: the Connection Resolver create_connection,
whose implementation module is absent from src/ (only
tests/test_functional_api.py exercises it). With an account tag: the tag
must be in the known set (InvalidAccount otherwise) and the four
conventional environment variables must be present and non-empty
(MissingCredentials naming the missing variables otherwise). Without an
account tag: the four explicit fields must all be supplied, where supplied
means present and non-empty; when none of them is supplied neither mode is
specified and the failure is MissingCredentials, and when some but not all
are supplied the failure is IncompleteExplicitCredentials naming the
missing fields. -/
def create_connection
    (account endpoint access_key secret_key bucket : Option String) (env : Env) :
    Except ResolveError MinioConnection :=
  match account with
  | some a =>
    if a ∈ knownAccounts then
      if missingEnvVars a env = [] then
        Except.ok
          { bucket_name := (env (envVar a "BUCKET")).getD ""
          , client := specClient ((env (envVar a "ENDPOINT")).getD "")
              ((env (envVar a "ACCESS_KEY")).getD "")
              ((env (envVar a "SECRET_KEY")).getD "") }
      else Except.error (ResolveError.missingCredentials (missingEnvVars a env))
    else Except.error (ResolveError.invalidAccount a)
  | none =>
    let missing := missingExplicitFields endpoint access_key secret_key bucket
    if missing.length = 4 then Except.error (ResolveError.missingCredentials missing)
    else if missing = [] then
      Except.ok
        { bucket_name := bucket.getD ""
        , client := specClient (endpoint.getD "") (access_key.getD "")
            (secret_key.getD "") }
    else Except.error (ResolveError.incompleteExplicitCredentials missing)

/-- The arguments of an fput_object call on the underlying client. -/
structure FputReq where
  bucket_name : String
  file_path : String
  object_name : String
deriving Repr, DecidableEq

/-- The arguments of a list_objects call made by the functional API. -/
structure ListReq where
  bucket_name : String
  pfx : Option String
  recursive : Bool
deriving Repr, DecidableEq

/-- A record of the sequence yielded by list_files: the four attributes of
each stored object. -/
structure FileRecord where
  object_name : String
  size : Nat
  last_modified : String
  etag : String
deriving Repr, DecidableEq

namespace FunApi

/-- Modelled from the spec: upload forwards to
fput_object(bucket_name=bucket or connection bucket, file_path=local,
object_name=remote); the connection is returned as it is left, unchanged
(the body assigns none of its fields). -/
def upload_file (conn : MinioConnection) (local_path remote_name : String)
    (bucket : Option String) : FputReq × MinioConnection :=
  ( { bucket_name := bucket.getD conn.bucket_name
    , file_path := local_path
    , object_name := remote_name }
  , conn )

/-- Modelled from the spec: download forwards to
fget_object(bucket_name=bucket or connection bucket, object_name=remote,
file_path=local); the connection is returned unchanged. -/
def download_file (conn : MinioConnection) (remote_name local_path : String)
    (bucket : Option String) : FgetReq × MinioConnection :=
  ( { bucket_name := some (bucket.getD conn.bucket_name)
    , object_name := remote_name
    , file_path := local_path }
  , conn )

/-- Modelled from the spec: list issues
list_objects(bucket_name, prefix=..., recursive=True) on the default
bucket and yields one record per object the client returns, carrying
object_name, size, last_modified and etag; the connection is returned
unchanged. -/
def list_files (conn : MinioConnection) (pfx : Option String) :
    (ListReq × (List ObjStat → List FileRecord)) × MinioConnection :=
  ( ( { bucket_name := conn.bucket_name, pfx := pfx, recursive := true }
    , fun objs =>
        objs.map (fun o =>
          { object_name := o.object_name, size := o.size
          , last_modified := o.last_modified, etag := o.etag }) )
  , conn )

end FunApi

/-- A filesystem on which no path names an existing file. -/
def noFile : String → Bool := fun _ => false

/-- A concrete environment configuring the HO account with a bucket and a
plain http endpoint. -/
def envHO1 : Env :=
  Env.ofList [("MINIO_HO_BUCKET", "bkt"), ("MINIO_HO_ENDPOINT", "http://h")]

/-- envHO1 with one unrelated variable added. -/
def envHO2 : Env :=
  Env.ofList
    [ ("MINIO_HO_BUCKET", "bkt"), ("MINIO_HO_ENDPOINT", "http://h")
    , ("EXTRA", "e") ]

/-- A concrete environment where the HO secret key is set but empty and
the HO endpoint is absent. -/
def envC2 : Env :=
  Env.ofList
    [ ("MINIO_HO_BUCKET", "b"), ("MINIO_HO_ACCESS_KEY", "k")
    , ("MINIO_HO_SECRET_KEY", "") ]

/-- A concrete environment whose HO endpoint contains http:// both as the
leading scheme prefix and in the interior of the path. -/
def envC4 : Env := Env.ofList [("MINIO_HO_ENDPOINT", "http://a/http://b")]

/-! ## Helper lemmas on the endpoint normalization -/

/-- Whether http:// occurs anywhere in a character list, scanning like
Python str.find. -/
def occursHttp : List Char → Bool
  | 'h' :: 't' :: 't' :: 'p' :: ':' :: '/' :: '/' :: _ => true
  | _ :: rest => occursHttp rest
  | [] => false

/-- Whether https:// occurs anywhere in a character list. -/
def occursHttps : List Char → Bool
  | 'h' :: 't' :: 't' :: 'p' :: 's' :: ':' :: '/' :: '/' :: _ => true
  | _ :: rest => occursHttps rest
  | [] => false

theorem occursHttp_cons (c : Char) (rest : List Char)
    (h : occursHttp (c :: rest) = false) : occursHttp rest = false := by
  rw [occursHttp.eq_def] at h
  split at h
  · simp at h
  · next c2 rest2 heq =>
      injection heq with h1 h2
      rw [h2]; exact h
  · next heq => exact absurd heq (by simp)

theorem occursHttps_cons (c : Char) (rest : List Char)
    (h : occursHttps (c :: rest) = false) : occursHttps rest = false := by
  rw [occursHttps.eq_def] at h
  split at h
  · simp at h
  · next c2 rest2 heq =>
      injection heq with h1 h2
      rw [h2]; exact h
  · next heq => exact absurd heq (by simp)

/-- A list free of http:// occurrences is left unchanged by the replace
pass. -/
theorem removeHttp_of_not_occurs : ∀ s : List Char,
    occursHttp s = false → removeHttp s = s := by
  intro s
  induction s with
  | nil => intro _; rfl
  | cons c rest ih =>
      intro h
      have hrest := occursHttp_cons c rest h
      rw [removeHttp.eq_def]
      split
      · next rest2 heq =>
          exfalso
          rw [heq, occursHttp] at h
          simp at h
      · next c2 rest2 heq =>
          injection heq with h1 h2
          subst h1; subst h2
          rw [ih hrest]
      · next heq => exact absurd heq (by simp)

/-- A list free of https:// occurrences is left unchanged by the replace
pass. -/
theorem removeHttps_of_not_occurs : ∀ s : List Char,
    occursHttps s = false → removeHttps s = s := by
  intro s
  induction s with
  | nil => intro _; rfl
  | cons c rest ih =>
      intro h
      have hrest := occursHttps_cons c rest h
      rw [removeHttps.eq_def]
      split
      · next rest2 heq =>
          exfalso
          rw [heq, occursHttps] at h
          simp at h
      · next c2 rest2 heq =>
          injection heq with h1 h2
          subst h1; subst h2
          rw [ih hrest]
      · next heq => exact absurd heq (by simp)

theorem occursHttp_https_head (r : List Char) :
    occursHttp ('h' :: 't' :: 't' :: 'p' :: 's' :: ':' :: '/' :: '/' :: r)
      = occursHttp r := rfl

theorem removeHttp_head (r : List Char) :
    removeHttp ('h' :: 't' :: 't' :: 'p' :: ':' :: '/' :: '/' :: r)
      = removeHttp r := rfl

theorem removeHttps_head (r : List Char) :
    removeHttps ('h' :: 't' :: 't' :: 'p' :: 's' :: ':' :: '/' :: '/' :: r)
      = removeHttps r := rfl

theorem hostCore_http (r : List Char) (h1 : occursHttp r = false)
    (h2 : occursHttps r = false) :
    removeHttps (removeHttp ('h' :: 't' :: 't' :: 'p' :: ':' :: '/' :: '/' :: r)) = r := by
  rw [removeHttp_head, removeHttp_of_not_occurs r h1, removeHttps_of_not_occurs r h2]

theorem hostCore_https (r : List Char) (h1 : occursHttp r = false)
    (h2 : occursHttps r = false) :
    removeHttps (removeHttp ('h' :: 't' :: 't' :: 'p' :: 's' :: ':' :: '/' :: '/' :: r)) = r := by
  have hocc : occursHttp ('h' :: 't' :: 't' :: 'p' :: 's' :: ':' :: '/' :: '/' :: r) = false := by
    rw [occursHttp_https_head]; exact h1
  rw [removeHttp_of_not_occurs _ hocc, removeHttps_head,
    removeHttps_of_not_occurs r h2]

theorem hostCore_none (s : List Char) (h1 : occursHttp s = false)
    (h2 : occursHttps s = false) :
    removeHttps (removeHttp s) = s := by
  rw [removeHttp_of_not_occurs s h1, removeHttps_of_not_occurs s h2]

/-- When the scheme occurs only as the leading prefix, the replace-based
normalization of the source agrees with stripping the leading prefix. -/
theorem legacyHost_eq_strip (ep : String)
    (h1 : occursHttp (stripLeadingScheme ep).data = false)
    (h2 : occursHttps (stripLeadingScheme ep).data = false) :
    legacyHostOf ep = stripLeadingScheme ep := by
  by_cases hA : pyStartsWith ep "http://" = true
  · have hpre : "http://".data <+: ep.data := List.isPrefixOf_iff_prefix.mp hA
    obtain ⟨r, hr⟩ := hpre
    have hstrip : stripLeadingScheme ep = String.mk r := by
      simp only [stripLeadingScheme, hA, if_true]
      rw [← hr]
      exact congrArg String.mk (List.drop_left "http://".data r)
    rw [hstrip] at h1 h2 ⊢
    unfold legacyHostOf
    rw [← hr]
    exact congrArg String.mk (hostCore_http r h1 h2)
  · have hA0 : pyStartsWith ep "http://" = false := by
      revert hA; cases pyStartsWith ep "http://" <;> simp
    by_cases hB : pyStartsWith ep "https://" = true
    · have hpre : "https://".data <+: ep.data := List.isPrefixOf_iff_prefix.mp hB
      obtain ⟨r, hr⟩ := hpre
      have hstrip : stripLeadingScheme ep = String.mk r := by
        simp only [stripLeadingScheme, hA0, hB, if_true, Bool.false_eq_true, if_false]
        rw [← hr]
        exact congrArg String.mk (List.drop_left "https://".data r)
      rw [hstrip] at h1 h2 ⊢
      unfold legacyHostOf
      rw [← hr]
      exact congrArg String.mk (hostCore_https r h1 h2)
    · have hB0 : pyStartsWith ep "https://" = false := by
        revert hB; cases pyStartsWith ep "https://" <;> simp
      have hstrip : stripLeadingScheme ep = ep := by
        simp [stripLeadingScheme, hA0, hB0]
      rw [hstrip] at h1 h2 ⊢
      unfold legacyHostOf
      exact congrArg String.mk (hostCore_none ep.data h1 h2)

/-! ## The claims -/

/-- C3: for every account tag not in the fixed known set, the constructor
fails with the invalid-account rejection carrying the message of line 44,
and no environment variable is consulted: the result is the same error for
every environment whatsoever. -/
theorem c3_invalid_account (account : String) (h : account ∉ knownAccounts)
    (env : Env) :
    minio_file_init account env
      = Except.error (PyError.invalidAccount ("Incorrect account " ++ account)) := by
  simp [minio_file_init, h]

theorem c3_invalid_account_witness :
    "UNKNOWN" ∉ knownAccounts ∧
      minio_file_init "UNKNOWN"
          (Env.ofList [("MINIO_UNKNOWN_ENDPOINT", "https://x")])
        = Except.error (PyError.invalidAccount "Incorrect account UNKNOWN") :=
  ⟨by decide
  , c3_invalid_account "UNKNOWN" (by decide)
      (Env.ofList [("MINIO_UNKNOWN_ENDPOINT", "https://x")])⟩

/-- C5: for every account tag in the known set, with the four conventional
environment variables MINIO_ACCOUNT_FIELD set, the constructor succeeds
and the resulting bucket_name is the BUCKET value; moreover only those
four variables are read: any environment agreeing on them yields the very
same result. -/
theorem c5_named_account (account : String) (hacc : account ∈ knownAccounts)
    (env env2 : Env) (b ak sk ep : String)
    (hb : env (envVar account "BUCKET") = some b)
    (hak : env (envVar account "ACCESS_KEY") = some ak)
    (hsk : env (envVar account "SECRET_KEY") = some sk)
    (hep : env (envVar account "ENDPOINT") = some ep)
    (e1 : env2 (envVar account "BUCKET") = env (envVar account "BUCKET"))
    (e2 : env2 (envVar account "ACCESS_KEY") = env (envVar account "ACCESS_KEY"))
    (e3 : env2 (envVar account "SECRET_KEY") = env (envVar account "SECRET_KEY"))
    (e4 : env2 (envVar account "ENDPOINT") = env (envVar account "ENDPOINT")) :
    minio_file_init account env
        = Except.ok
            { account := account, bucket_name := some b
            , client :=
                { endpoint := legacyHostOf ep, access_key := some ak
                , secret_key := some sk, secure := legacySecureOf ep } }
      ∧ minio_file_init account env2 = minio_file_init account env := by
  constructor
  · simp [minio_file_init, hacc, get_client, get_credentials, hb, hak, hsk, hep]
  · simp [minio_file_init, hacc, get_client, get_credentials, e1, e2, e3, e4]

theorem c5_named_account_witness :
    minio_file_init "WO"
        (Env.ofList
          [ ("MINIO_WO_BUCKET", "wob"), ("MINIO_WO_ACCESS_KEY", "woa")
          , ("MINIO_WO_SECRET_KEY", "wos"), ("MINIO_WO_ENDPOINT", "http://w:9000") ])
      = Except.ok
          { account := "WO", bucket_name := some "wob"
          , client :=
              { endpoint := legacyHostOf "http://w:9000", access_key := some "woa"
              , secret_key := some "wos", secure := legacySecureOf "http://w:9000" } } :=
  (c5_named_account "WO" (by decide)
    (Env.ofList
      [ ("MINIO_WO_BUCKET", "wob"), ("MINIO_WO_ACCESS_KEY", "woa")
      , ("MINIO_WO_SECRET_KEY", "wos"), ("MINIO_WO_ENDPOINT", "http://w:9000") ])
    (Env.ofList
      [ ("MINIO_WO_BUCKET", "wob"), ("MINIO_WO_ACCESS_KEY", "woa")
      , ("MINIO_WO_SECRET_KEY", "wos"), ("MINIO_WO_ENDPOINT", "http://w:9000")
      , ("UNRELATED", "junk") ])
    "wob" "woa" "wos" "http://w:9000"
    rfl rfl rfl rfl rfl rfl rfl rfl).1

/-- C7: resolution is deterministic: two runs of the constructor on the
same account and the same environment that both succeed produce objects
with equal bucket_name and equal secure flag. -/
theorem c7_resolution_deterministic (account : String) (env : Env)
    (o1 o2 : MinioFileObj)
    (h1 : minio_file_init account env = Except.ok o1)
    (h2 : minio_file_init account env = Except.ok o2) :
    o1.bucket_name = o2.bucket_name ∧ o1.client.secure = o2.client.secure := by
  rw [h1] at h2
  injection h2 with h
  rw [h]
  exact ⟨rfl, rfl⟩

/-- C4 (amended): the secure flag is derived by startswith on the
untouched endpoint, and the host handed to the client constructor agrees
with stripping only the leading scheme prefix whenever the remainder
contains no further occurrence of http:// or https:// (in general the
source deletes every occurrence, as the counterexample shows). -/
theorem c4_host_normalization (account : String) (env : Env) (ep : String)
    (hep : env (envVar account "ENDPOINT") = some ep)
    (h1 : occursHttp (stripLeadingScheme ep).data = false)
    (h2 : occursHttps (stripLeadingScheme ep).data = false) :
    get_client account env
      = Except.ok
          { account := account
          , bucket_name := env (envVar account "BUCKET")
          , client :=
              { endpoint := stripLeadingScheme ep
              , access_key := env (envVar account "ACCESS_KEY")
              , secret_key := env (envVar account "SECRET_KEY")
              , secure := pyStartsWith ep "https://" } } := by
  simp only [get_client, get_credentials, hep]
  rw [legacyHost_eq_strip ep h1 h2]
  rfl

theorem c4_host_normalization_witness :
    get_client "HO" (Env.ofList [("MINIO_HO_ENDPOINT", "https://minio.example.com:9000")])
      = Except.ok
          { account := "HO", bucket_name := none
          , client :=
              { endpoint := "minio.example.com:9000", access_key := none
              , secret_key := none, secure := true } } :=
  c4_host_normalization "HO"
    (Env.ofList [("MINIO_HO_ENDPOINT", "https://minio.example.com:9000")])
    "https://minio.example.com:9000" rfl (by decide) (by decide)

/-- C4 counterexample: with the endpoint http://a/http://b the client
receives the host a/b — the interior occurrence is deleted too — whereas
removing only the leading prefix would give a/http://b. -/
theorem c4_counterexample :
    get_client "HO" envC4
        = Except.ok
            { account := "HO", bucket_name := none
            , client :=
                { endpoint := "a/b", access_key := none
                , secret_key := none, secure := false } }
      ∧ stripLeadingScheme "http://a/http://b" = "a/http://b"
      ∧ ("a/b" : String) ≠ "a/http://b" :=
  ⟨rfl, by decide, by decide⟩

theorem c7_resolution_deterministic_witness :
    (⟨"HO", some "bkt", ⟨"x", some "ak", some "sk", true⟩⟩ : MinioFileObj).bucket_name
        = (⟨"HO", some "bkt", ⟨"x", some "ak", some "sk", true⟩⟩ : MinioFileObj).bucket_name
      ∧ (⟨"HO", some "bkt", ⟨"x", some "ak", some "sk", true⟩⟩ : MinioFileObj).client.secure
        = (⟨"HO", some "bkt", ⟨"x", some "ak", some "sk", true⟩⟩ : MinioFileObj).client.secure :=
  c7_resolution_deterministic "HO"
    (Env.ofList
      [ ("MINIO_HO_BUCKET", "bkt"), ("MINIO_HO_ACCESS_KEY", "ak")
      , ("MINIO_HO_SECRET_KEY", "sk"), ("MINIO_HO_ENDPOINT", "https://x") ])
    _ _ rfl rfl

theorem isBlankOpt_some_ne (s : String) (h : s ≠ "") :
    isBlankOpt (some s) = false := by
  cases s with
  | mk l =>
      cases l with
      | nil => exact absurd rfl h
      | cons c t => rfl

theorem not_blank_some (o : Option String) (h : isBlankOpt o = false) :
    ∃ s, o = some s ∧ s ≠ "" := by
  cases o with
  | none => simp [isBlankOpt] at h
  | some s =>
      refine ⟨s, rfl, ?_⟩
      intro h0
      subst h0
      simp [isBlankOpt] at h

theorem envVar_field_inj (a f g : String) (h : envVar a f = envVar a g) :
    f = g := by
  have hd := congrArg String.data h
  simp only [envVar, String.data_append, List.append_assoc] at hd
  have h1 := List.append_cancel_left hd
  have h2 := List.append_cancel_left h1
  have h3 := List.append_cancel_left h2
  cases f; cases g; exact congrArg String.mk h3

/-- Membership in the missing-variable list characterizes exactly the
absent-or-empty conventional variables. -/
theorem mem_missingEnvVars (a : String) (env : Env) (f : String)
    (hf : f ∈ resolverFields) :
    envVar a f ∈ missingEnvVars a env ↔ isBlankOpt (env (envVar a f)) = true := by
  unfold missingEnvVars
  rw [List.mem_map]
  constructor
  · rintro ⟨g, hg, hEq⟩
    have hgf : g = f := envVar_field_inj a g f hEq
    subst hgf
    exact (List.mem_filter.mp hg).2
  · intro hblank
    exact ⟨f, List.mem_filter.mpr ⟨hf, hblank⟩, rfl⟩

theorem blank_of_missingExplicit_nil (e a s b : Option String)
    (hm : missingExplicitFields e a s b = []) :
    isBlankOpt b = false := by
  simp only [missingExplicitFields, List.map_eq_nil_iff,
    List.filter_eq_nil_iff] at hm
  have hb := hm ("bucket", b) (by simp)
  revert hb
  cases isBlankOpt b <;> simp

/-- C2: in named-account mode, for any known tag, whenever one of the four
conventional environment variables is absent or empty the resolver fails
with MissingCredentials carrying the missing-variable list, a list that is
non-empty and contains exactly the conventional names of the variables
that are absent or empty. -/
theorem c2_missing_env (a : String) (hacc : a ∈ knownAccounts)
    (e ak sk b : Option String) (env : Env)
    (hany : isBlankOpt (env (envVar a "BUCKET")) = true
      ∨ isBlankOpt (env (envVar a "ACCESS_KEY")) = true
      ∨ isBlankOpt (env (envVar a "SECRET_KEY")) = true
      ∨ isBlankOpt (env (envVar a "ENDPOINT")) = true) :
    create_connection (some a) e ak sk b env
        = Except.error (ResolveError.missingCredentials (missingEnvVars a env))
      ∧ missingEnvVars a env ≠ []
      ∧ ∀ f, f ∈ resolverFields →
          (envVar a f ∈ missingEnvVars a env
            ↔ isBlankOpt (env (envVar a f)) = true) := by
  have hne : missingEnvVars a env ≠ [] := by
    obtain ⟨f, hf, hb⟩ :
        ∃ f, f ∈ resolverFields ∧ isBlankOpt (env (envVar a f)) = true := by
      rcases hany with h | h | h | h
      · exact ⟨"BUCKET", by simp [resolverFields], h⟩
      · exact ⟨"ACCESS_KEY", by simp [resolverFields], h⟩
      · exact ⟨"SECRET_KEY", by simp [resolverFields], h⟩
      · exact ⟨"ENDPOINT", by simp [resolverFields], h⟩
    intro hnil
    have hmem := (mem_missingEnvVars a env f hf).mpr hb
    rw [hnil] at hmem
    exact absurd hmem (List.not_mem_nil _)
  refine ⟨?_, hne, fun f hf => mem_missingEnvVars a env f hf⟩
  simp [create_connection, hacc, hne]

theorem c2_missing_env_witness :
    create_connection (some "HO") none none none none envC2
      = Except.error (ResolveError.missingCredentials
          ["MINIO_HO_SECRET_KEY", "MINIO_HO_ENDPOINT"]) :=
  (c2_missing_env "HO" (by decide) none none none none envC2
    (Or.inr (Or.inr (Or.inl (by decide))))).1

/-- C1 (amended): without an account tag, the resolver succeeds with the
supplied bucket when all four explicit fields are supplied; it fails with
IncompleteExplicitCredentials naming the missing fields when at least one
but not all of them is missing; and when none of the four is supplied
neither mode is specified and it fails with MissingCredentials. -/
theorem c1_explicit_mode (env : Env) :
    (∀ ep ak sk b : String,
        ep ≠ "" → ak ≠ "" → sk ≠ "" → b ≠ "" →
        create_connection none (some ep) (some ak) (some sk) (some b) env
          = Except.ok { client := specClient ep ak sk, bucket_name := b })
      ∧ (∀ endpoint access_key secret_key bucket : Option String,
          missingExplicitFields endpoint access_key secret_key bucket ≠ [] →
          (missingExplicitFields endpoint access_key secret_key bucket).length ≠ 4 →
          create_connection none endpoint access_key secret_key bucket env
            = Except.error (ResolveError.incompleteExplicitCredentials
                (missingExplicitFields endpoint access_key secret_key bucket)))
      ∧ create_connection none none none none none env
          = Except.error (ResolveError.missingCredentials
              ["endpoint", "access_key", "secret_key", "bucket"]) := by
  refine ⟨?_, ?_, rfl⟩
  · intro ep ak sk b hep hak hsk hb
    have e1 := isBlankOpt_some_ne ep hep
    have e2 := isBlankOpt_some_ne ak hak
    have e3 := isBlankOpt_some_ne sk hsk
    have e4 := isBlankOpt_some_ne b hb
    simp [create_connection, missingExplicitFields, e1, e2, e3, e4]
  · intro endpoint access_key secret_key bucket hne hlen
    simp [create_connection, hne, hlen]

theorem c1_explicit_mode_witness :
    create_connection none (some "https://x") (some "a") (some "b") (some "c")
        (Env.ofList [])
        = Except.ok { client := specClient "https://x" "a" "b", bucket_name := "c" }
      ∧ create_connection none (some "https://x") (some "a") none none
          (Env.ofList [])
        = Except.error
            (ResolveError.incompleteExplicitCredentials ["secret_key", "bucket"]) :=
  ⟨(c1_explicit_mode (Env.ofList [])).1 "https://x" "a" "b" "c"
      (by decide) (by decide) (by decide) (by decide)
  , (c1_explicit_mode (Env.ofList [])).2.1 (some "https://x") (some "a") none none
      (by decide) (by decide)⟩

/-- C1 counterexample: with no account and none of the four explicit
fields supplied, resolution fails with MissingCredentials, not with
IncompleteExplicitCredentials as the claim states for every missing
subset. -/
theorem c1_counterexample :
    create_connection none none none none none (Env.ofList [])
        = Except.error (ResolveError.missingCredentials
            ["endpoint", "access_key", "secret_key", "bucket"])
      ∧ ResolveError.missingCredentials
            ["endpoint", "access_key", "secret_key", "bucket"]
          ≠ ResolveError.incompleteExplicitCredentials
            ["endpoint", "access_key", "secret_key", "bucket"] :=
  ⟨rfl, by decide⟩

/-- C6: every successfully resolved Connection has a non-empty
bucket_name, and the delegated operations leave the connection unchanged. -/
theorem c6_bucket_invariant
    (account endpoint access_key secret_key bucket : Option String) (env : Env)
    (conn : MinioConnection)
    (h : create_connection account endpoint access_key secret_key bucket env
        = Except.ok conn) :
    conn.bucket_name ≠ ""
      ∧ (∀ l r bo, (FunApi.upload_file conn l r bo).2 = conn)
      ∧ (∀ r l bo, (FunApi.download_file conn r l bo).2 = conn)
      ∧ (∀ p, (FunApi.list_files conn p).2 = conn) := by
  refine ⟨?_, fun _ _ _ => rfl, fun _ _ _ => rfl, fun _ => rfl⟩
  cases account with
  | some a =>
      by_cases hacc : a ∈ knownAccounts
      · by_cases hm : missingEnvVars a env = []
        · have hb : isBlankOpt (env (envVar a "BUCKET")) = false := by
            cases hblank : isBlankOpt (env (envVar a "BUCKET")) with
            | false => rfl
            | true =>
                have hmem :=
                  (mem_missingEnvVars a env "BUCKET" (by simp [resolverFields])).mpr hblank
                rw [hm] at hmem
                exact absurd hmem (List.not_mem_nil _)
          obtain ⟨s, hsome, hs⟩ := not_blank_some _ hb
          have hcc : create_connection (some a) endpoint access_key secret_key bucket env
              = Except.ok
                  { bucket_name := (env (envVar a "BUCKET")).getD ""
                  , client := specClient ((env (envVar a "ENDPOINT")).getD "")
                      ((env (envVar a "ACCESS_KEY")).getD "")
                      ((env (envVar a "SECRET_KEY")).getD "") } := by
            simp [create_connection, hacc, hm]
          rw [hcc] at h
          injection h with h0
          rw [← h0]
          simp [hsome]
          exact hs
        · simp [create_connection, hacc, hm] at h
      · simp [create_connection, hacc] at h
  | none =>
      by_cases h4 : (missingExplicitFields endpoint access_key secret_key bucket).length = 4
      · simp [create_connection, h4] at h
      · by_cases hm : missingExplicitFields endpoint access_key secret_key bucket = []
        · have hb := blank_of_missingExplicit_nil endpoint access_key secret_key bucket hm
          obtain ⟨s, hsome, hs⟩ := not_blank_some _ hb
          have hcc : create_connection none endpoint access_key secret_key bucket env
              = Except.ok
                  { bucket_name := bucket.getD ""
                  , client := specClient (endpoint.getD "") (access_key.getD "")
                      (secret_key.getD "") } := by
            simp [create_connection, h4, hm]
          rw [hcc] at h
          injection h with h0
          rw [← h0]
          simp [hsome]
          exact hs
        · simp [create_connection, h4, hm] at h

theorem c6_bucket_invariant_witness :
    (⟨specClient "https://x" "a" "b", "c"⟩ : MinioConnection).bucket_name ≠ "" :=
  (c6_bucket_invariant none (some "https://x") (some "a") (some "b") (some "c")
    (Env.ofList []) ⟨specClient "https://x" "a" "b", "c"⟩ rfl).1

/-- C8: the list operation issues list_objects on the default bucket with
the optional prefix and recursive traversal, and yields a finite sequence
with exactly one record per object the client returns, each carrying that
object's object_name, size, last_modified and etag. -/
theorem c8_list_files (conn : MinioConnection) (pfx : Option String)
    (objs : List ObjStat) :
    (FunApi.list_files conn pfx).1.1
        = { bucket_name := conn.bucket_name, pfx := pfx, recursive := true }
      ∧ ((FunApi.list_files conn pfx).1.2 objs).length = objs.length
      ∧ ∀ i : Nat, ((FunApi.list_files conn pfx).1.2 objs)[i]?
          = (objs[i]?).map (fun o =>
              { object_name := o.object_name, size := o.size
              , last_modified := o.last_modified, etag := o.etag }) := by
  refine ⟨rfl, by simp [FunApi.list_files], fun i => ?_⟩
  simp [FunApi.list_files]

/-- C9: once the HO connection resolves, the CLI with zero positional
arguments lists the bucket, and with two positional arguments it skips
when the local file exists and otherwise downloads, naming the object
after the first argument and writing it to that same argument as local
path. -/
theorem c9_cli (env : Env) (ho : MinioFileObj) (fs : String → Bool)
    (h : minio_file_init "HO" env = Except.ok ho) (prog a b : String) :
    main [prog] fs env
        = Except.ok (MainOutcome.listed
            { bucket_name := ho.bucket_name, recursive := true })
      ∧ (fs (pathStr a) = true →
          main [prog, a, b] fs env
            = Except.ok (MainOutcome.skippedExisting (pathStr a)))
      ∧ (fs (pathStr a) = false →
          main [prog, a, b] fs env
            = Except.ok (MainOutcome.downloaded
                { bucket_name := ho.bucket_name, object_name := pathStr a
                , file_path := a })) := by
  unfold main
  rw [h]
  refine ⟨rfl, fun hf => ?_, fun hf => ?_⟩
  · simp [hf]
  · simp [hf, download_file]

theorem c9_cli_witness :
    main ["prog", "data.csv", "x"] noFile envHO1
      = Except.ok (MainOutcome.downloaded
          { bucket_name := some "bkt", object_name := "data.csv"
          , file_path := "data.csv" }) :=
  (c9_cli envHO1 ⟨"HO", some "bkt", ⟨"h", none, none, false⟩⟩ noFile rfl
    "prog" "data.csv" "x").2.2 rfl

/-- C10 counterexample: with first argument a//b the CLI downloads with
local file path a//b but remote object name a/b, the string form of the
Path object — not the first argument itself. -/
theorem c10_counterexample :
    main ["prog", "a//b", "second"] noFile envHO1
        = Except.ok (MainOutcome.downloaded
            { bucket_name := some "bkt", object_name := "a/b"
            , file_path := "a//b" })
      ∧ ("a/b" : String) ≠ "a//b" :=
  ⟨rfl, by decide⟩

/-- C10 (amended): the CLI always resolves the fixed account HO — its
behavior depends on the environment only through that resolution, for
every argument vector — and in the two-argument form the first argument is
the local destination path while the remote object name is its
path-normalized string form str(Path(arg)); the second argument is never
used. -/
theorem c10_cli_fixed_account (env env2 : Env) (fs : String → Bool)
    (ho : MinioFileObj) (h : minio_file_init "HO" env = Except.ok ho)
    (h2 : minio_file_init "HO" env2 = minio_file_init "HO" env)
    (prog a b b2 : String) (hf : fs (pathStr a) = false) :
    main [prog, a, b] fs env
        = Except.ok (MainOutcome.downloaded
            { bucket_name := ho.bucket_name, object_name := pathStr a
            , file_path := a })
      ∧ main [prog, a, b2] fs env = main [prog, a, b] fs env
      ∧ ∀ argv : List String, main argv fs env2 = main argv fs env := by
  refine ⟨?_, ?_, fun argv => ?_⟩
  · unfold main
    rw [h]
    simp [hf, download_file]
  · unfold main
    rw [h]
  · unfold main
    rw [h2]

theorem c10_cli_fixed_account_witness :
    main ["prog", "f.txt", "unused"] noFile envHO1
        = Except.ok (MainOutcome.downloaded
            { bucket_name := some "bkt", object_name := "f.txt"
            , file_path := "f.txt" })
      ∧ main ["prog", "f.txt", "other"] noFile envHO1
          = main ["prog", "f.txt", "unused"] noFile envHO1 :=
  ⟨(c10_cli_fixed_account envHO1 envHO2 noFile
      ⟨"HO", some "bkt", ⟨"h", none, none, false⟩⟩ rfl rfl
      "prog" "f.txt" "unused" "other" rfl).1
  , (c10_cli_fixed_account envHO1 envHO2 noFile
      ⟨"HO", some "bkt", ⟨"h", none, none, false⟩⟩ rfl rfl
      "prog" "f.txt" "unused" "other" rfl).2.1⟩

end SdpTools
